import Mathlib

/-!
Verification of the rust-stereo-pipeline geometric core (rsp-core).

Shallow embedding conventions:
* `f64` values are embedded as exact rationals (`ℚ`).  The claims below are
  about control flow, exact polynomial arithmetic, comparisons against
  literal tolerance constants, and error structure; all of these are exact
  in the source as well (they do not depend on rounding).
* The transcendental `f64` intrinsics (`sqrt`, `atan`, `atan2`, `sin`,
  `cos`, `to_degrees`, `to_radians`) are uninterpreted parameters, bundled
  in a `RealOps` record and threaded through every definition that the
  source computes with them.  Theorems quantify over all `RealOps`, so they
  hold for any interpretation of these intrinsics.
* Rust `Result<T, E>` becomes `Except E T`; `Option<T>` becomes `Option T`.
* `for` loops with a fixed bound become fuel-indexed structural recursion
  with exactly the source's bound as initial fuel.
-/

namespace RSP

/-- Uninterpreted models of the `f64` transcendental intrinsics used by
rsp-core (`sqrt`, `atan`, `atan2`, `sin`, `cos`, `to_degrees`,
`to_radians`). -/
structure RealOps where
  sqrt : ℚ → ℚ
  atan : ℚ → ℚ
  atan2 : ℚ → ℚ → ℚ
  sin : ℚ → ℚ
  cos : ℚ → ℚ
  toDegrees : ℚ → ℚ
  toRadians : ℚ → ℚ

/-- A trivial interpretation of the intrinsics, used to instantiate
universally quantified theorems at concrete inputs whose control flow does
not depend on the intrinsics. -/
def dummyOps : RealOps :=
  ⟨fun _ => 0, fun _ => 0, fun _ _ => 0, fun _ => 0, fun _ => 0,
   fun _ => 0, fun _ => 0⟩

/-- `nalgebra::Vector3<f64>` as used by rsp-core. -/
structure Vector3 where
  x : ℚ
  y : ℚ
  z : ℚ
deriving DecidableEq

/-- `DistortionModel` from src/rsp-core/src/camera/distortion.rs. -/
inductive DistortionModel where
  | None : DistortionModel
  | BrownConrady (k1 k2 k3 p1 p2 : ℚ) : DistortionModel
  | Fisheye (k1 k2 k3 k4 : ℚ) : DistortionModel
deriving DecidableEq

/-- `DistortionError` from src/rsp-core/src/camera/distortion.rs. -/
inductive DistortionError where
  | SingularJacobian : DistortionError
  | NonConvergent : DistortionError
deriving DecidableEq

instance {ε α : Type} [DecidableEq ε] [DecidableEq α] : DecidableEq (Except ε α) := fun a b =>
  match a, b with
  | .error e, .error f =>
      if h : e = f then .isTrue (by rw [h]) else .isFalse (by simp [h])
  | .error _, .ok _ => .isFalse (by simp)
  | .ok _, .error _ => .isFalse (by simp)
  | .ok v, .ok w =>
      if h : v = w then .isTrue (by rw [h]) else .isFalse (by simp [h])

/-- `DistortionModel::distort` from src/rsp-core/src/camera/distortion.rs
(lines 30-70). -/
def DistortionModel.distort (ops : RealOps) (d : DistortionModel) (x_norm y_norm : ℚ) : ℚ × ℚ :=
  match d with
  | .None => (x_norm, y_norm)
  | .BrownConrady k1 k2 k3 p1 p2 =>
      let r2 := x_norm * x_norm + y_norm * y_norm
      let r4 := r2 * r2
      let r6 := r4 * r2
      let radial := 1 + k1 * r2 + k2 * r4 + k3 * r6
      let x_dist := x_norm * radial + 2 * p1 * x_norm * y_norm
        + p2 * (r2 + 2 * x_norm * x_norm)
      let y_dist := y_norm * radial + p1 * (r2 + 2 * y_norm * y_norm)
        + 2 * p2 * x_norm * y_norm
      (x_dist, y_dist)
  | .Fisheye k1 k2 k3 k4 =>
      let r := ops.sqrt (x_norm * x_norm + y_norm * y_norm)
      if r < 1e-8 then (x_norm, y_norm)
      else
        let theta := ops.atan r
        let theta2 := theta * theta
        let theta4 := theta2 * theta2
        let theta6 := theta4 * theta2
        let theta8 := theta4 * theta4
        let theta_d := theta * (1 + k1 * theta2 + k2 * theta4 + k3 * theta6 + k4 * theta8)
        let scale := theta_d / r
        (x_norm * scale, y_norm * scale)

/-- The residual `(rx, ry) = (x_dist - fx, y_dist - fy)` computed at the top
of each `undistort` Newton iteration (distortion.rs lines 82-84). -/
def undistortResidual (ops : RealOps) (d : DistortionModel) (x_dist y_dist : ℚ)
    (s : ℚ × ℚ) : ℚ × ℚ :=
  let f := d.distort ops s.1 s.2
  (x_dist - f.1, y_dist - f.2)

/-- The convergence test of `undistort` (distortion.rs line 86):
`rx.abs() < 1e-8 && ry.abs() < 1e-10`. -/
def undistortConverged (ops : RealOps) (d : DistortionModel) (x_dist y_dist : ℚ)
    (s : ℚ × ℚ) : Prop :=
  |(undistortResidual ops d x_dist y_dist s).1| < 1e-8
    ∧ |(undistortResidual ops d x_dist y_dist s).2| < 1e-10

instance (ops : RealOps) (d : DistortionModel) (x_dist y_dist : ℚ) (s : ℚ × ℚ) :
    Decidable (undistortConverged ops d x_dist y_dist s) :=
  inferInstanceAs (Decidable (_ ∧ _))

/-- The forward finite-difference Jacobian determinant of `undistort`
(distortion.rs lines 91-101), with step `eps = 1e-6` on each axis. -/
def undistortJacDet (ops : RealOps) (d : DistortionModel) (s : ℚ × ℚ) : ℚ :=
  let eps : ℚ := 1e-6
  let f := d.distort ops s.1 s.2
  let fX := d.distort ops (s.1 + eps) s.2
  let fY := d.distort ops s.1 (s.2 + eps)
  let j11 := (fX.1 - f.1) / eps
  let j21 := (fX.2 - f.2) / eps
  let j12 := (fY.1 - f.1) / eps
  let j22 := (fY.2 - f.2) / eps
  j11 * j22 - j12 * j21

/-- The singularity test of `undistort` (distortion.rs line 102):
`det.abs() < 1e-18`. -/
def undistortSingular (ops : RealOps) (d : DistortionModel) (s : ℚ × ℚ) : Prop :=
  |undistortJacDet ops d s| < 1e-18

instance (ops : RealOps) (d : DistortionModel) (s : ℚ × ℚ) :
    Decidable (undistortSingular ops d s) :=
  inferInstanceAs (Decidable (_ < _))

/-- One Newton update of `undistort` (distortion.rs lines 95-110): Cramer's
rule on the finite-difference 2x2 Jacobian, then `(x, y) += (dx, dy)`. -/
def undistortStep (ops : RealOps) (d : DistortionModel) (x_dist y_dist : ℚ)
    (s : ℚ × ℚ) : ℚ × ℚ :=
  let eps : ℚ := 1e-6
  let f := d.distort ops s.1 s.2
  let rx := x_dist - f.1
  let ry := y_dist - f.2
  let fX := d.distort ops (s.1 + eps) s.2
  let fY := d.distort ops s.1 (s.2 + eps)
  let j11 := (fX.1 - f.1) / eps
  let j21 := (fX.2 - f.2) / eps
  let j12 := (fY.1 - f.1) / eps
  let j22 := (fY.2 - f.2) / eps
  let det := j11 * j22 - j12 * j21
  let dx := (j22 * rx - j12 * ry) / det
  let dy := (-j21 * rx + j11 * ry) / det
  (s.1 + dx, s.2 + dy)

/-- The `for _ in 0..10` Newton loop of `undistort` (distortion.rs lines
81-113), as fuel-indexed recursion: fuel 10 at the top level, and fuel
exhaustion is the post-loop `Err(NonConvergent)`. -/
def undistortGo (ops : RealOps) (d : DistortionModel) (x_dist y_dist : ℚ) :
    ℕ → ℚ × ℚ → Except DistortionError (ℚ × ℚ)
  | 0, _ => .error .NonConvergent
  | n + 1, s =>
      if undistortConverged ops d x_dist y_dist s then .ok s
      else if undistortSingular ops d s then .error .SingularJacobian
      else undistortGo ops d x_dist y_dist n (undistortStep ops d x_dist y_dist s)

/-- `DistortionModel::undistort` from src/rsp-core/src/camera/distortion.rs
(lines 74-116). -/
def DistortionModel.undistort (ops : RealOps) (d : DistortionModel) (x_dist y_dist : ℚ) :
    Except DistortionError (ℚ × ℚ) :=
  match d with
  | .None => .ok (x_dist, y_dist)
  | _ => undistortGo ops d x_dist y_dist 10 (x_dist, y_dist)

/-! ## Coordinate transforms (src/rsp-core/src/coordinate/transforms.rs) -/

/-- `LlaCoord` from transforms.rs: latitude and longitude in degrees,
altitude in meters above the WGS84 ellipsoid. -/
structure LlaCoord where
  lat : ℚ
  lon : ℚ
  alt : ℚ
deriving DecidableEq

/-- `ProjectionError` from src/rsp-core/src/error.rs. -/
inductive ProjectionError where
  | BehindCamera : ProjectionError
  | OutOfBounds : ProjectionError
  | InvalidRpc : ProjectionError
  | NoConvergence (iterations : ℕ) : ProjectionError
deriving DecidableEq

/-- `CoordinateError` from src/rsp-core/src/error.rs. -/
inductive CoordinateError where
  | InvalidLatitude (v : ℚ) : CoordinateError
  | InvalidLongitude (v : ℚ) : CoordinateError
  | InvalidHeight (v : ℚ) : CoordinateError
  | TransformFailed (s : String) : CoordinateError
deriving DecidableEq

/-- `RspError` from src/rsp-core/src/error.rs; the `From` impls generated
by `#[from]` become the explicit constructor wrappings at each `.into()`
site. -/
inductive RspError where
  | Projection (e : ProjectionError) : RspError
  | CoordinateTransform (e : CoordinateError) : RspError
  | Io (s : String) : RspError
  | InvalidInput (s : String) : RspError
  | Numerical (s : String) : RspError
deriving DecidableEq

/-- `WGS84_A` from transforms.rs line 17: semi-major axis in meters. -/
def WGS84_A : ℚ := 6378137.0

/-- `WGS84_E2` from transforms.rs line 18: first eccentricity squared. -/
def WGS84_E2 : ℚ := 0.00669437999014

/-- One pass of the `for _ in 0..10` loop body of `ecef_to_lla`
(transforms.rs lines 36-41), acting on the mutable state `(lat, alt)`. -/
def ecefStep (ops : RealOps) (z p : ℚ) (s : ℚ × ℚ) : ℚ × ℚ :=
  let sin_lat := ops.sin s.1
  let n := WGS84_A / ops.sqrt (1 - WGS84_E2 * sin_lat * sin_lat)
  let alt := p / ops.cos s.1 - n
  (ops.atan (z / p / (1 - WGS84_E2 * n / (n + alt))), alt)

/-- The `for _ in 0..10` loop of `ecef_to_lla` as fuel-indexed recursion:
it applies `ecefStep` unconditionally `fuel` times — there is no
convergence test and no early exit. -/
def ecefLoop (ops : RealOps) (z p : ℚ) : ℕ → ℚ × ℚ → ℚ × ℚ
  | 0, s => s
  | n + 1, s => ecefLoop ops z p n (ecefStep ops z p s)

/-- `ecef_to_lla` from transforms.rs lines 21-54. -/
def ecef_to_lla (ops : RealOps) (ecef : Vector3) : Except RspError LlaCoord :=
  let p := ops.sqrt (ecef.x * ecef.x + ecef.y * ecef.y)
  let lon := ops.toDegrees (ops.atan2 ecef.y ecef.x)
  let s := ecefLoop ops ecef.z p 10 (ops.atan (ecef.z / p), 0)
  let lat_deg := ops.toDegrees s.1
  if lat_deg < -90 ∨ lat_deg > 90 then
    .error (.CoordinateTransform (.InvalidLatitude lat_deg))
  else
    .ok ⟨lat_deg, lon, s.2⟩

/-- `lla_to_ecef` from transforms.rs lines 57-77. -/
def lla_to_ecef (ops : RealOps) (lla : LlaCoord) : Except RspError Vector3 :=
  if lla.lat < -90 ∨ lla.lat > 90 then
    .error (.CoordinateTransform (.InvalidLatitude lla.lat))
  else
    let lat_rad := ops.toRadians lla.lat
    let lon_rad := ops.toRadians lla.lon
    let sin_lat := ops.sin lat_rad
    let cos_lat := ops.cos lat_rad
    let sin_lon := ops.sin lon_rad
    let cos_lon := ops.cos lon_rad
    let n := WGS84_A / ops.sqrt (1 - WGS84_E2 * sin_lat * sin_lat)
    .ok ⟨(n + lla.alt) * cos_lat * cos_lon,
         (n + lla.alt) * cos_lat * sin_lon,
         (n * (1 - WGS84_E2) + lla.alt) * sin_lat⟩

/-! ## RPC sensor model (src/rsp-core/src/sensor/rpc.rs) -/

/-- `RpcCoefficients` from rpc.rs lines 7-25. -/
structure RpcCoefficients where
  line_num_coeff : Fin 20 → ℚ
  line_den_coeff : Fin 20 → ℚ
  samp_num_coeff : Fin 20 → ℚ
  samp_den_coeff : Fin 20 → ℚ
  lat_off : ℚ
  lat_scale : ℚ
  lon_off : ℚ
  lon_scale : ℚ
  height_off : ℚ
  height_scale : ℚ
  line_off : ℚ
  line_scale : ℚ
  samp_off : ℚ
  samp_scale : ℚ

/-- `RpcModel` from rpc.rs lines 28-31. -/
structure RpcModel where
  coeffs : RpcCoefficients

/-- `RpcModel::new` from rpc.rs lines 35-37. -/
def RpcModel.new (coeffs : RpcCoefficients) : RpcModel := ⟨coeffs⟩

/-- `eval_polynomial` from rpc.rs lines 133-154: the fixed 20-term RPC
monomial basis, coefficient `i` paired with the `i`-th term in source
order. -/
def eval_polynomial (coeffs : Fin 20 → ℚ) (p l h : ℚ) : ℚ :=
  coeffs 0
    + coeffs 1 * l
    + coeffs 2 * p
    + coeffs 3 * h
    + coeffs 4 * l * p
    + coeffs 5 * l * h
    + coeffs 6 * p * h
    + coeffs 7 * l * l
    + coeffs 8 * p * p
    + coeffs 9 * h * h
    + coeffs 10 * p * l * h
    + coeffs 11 * l * l * l
    + coeffs 12 * l * p * p
    + coeffs 13 * l * h * h
    + coeffs 14 * l * l * p
    + coeffs 15 * p * p * p
    + coeffs 16 * p * h * h
    + coeffs 17 * l * l * h
    + coeffs 18 * p * p * h
    + coeffs 19 * h * h * h

/-- The normalization step of `lla_to_image` (rpc.rs lines 54-56),
returning `(p, l, h)`. -/
def rpcNormalized (m : RpcModel) (lla : LlaCoord) : ℚ × ℚ × ℚ :=
  ((lla.lon - m.coeffs.lon_off) / m.coeffs.lon_scale,
   (lla.lat - m.coeffs.lat_off) / m.coeffs.lat_scale,
   (lla.alt - m.coeffs.height_off) / m.coeffs.height_scale)

/-- `line_den` of `lla_to_image` (rpc.rs line 60). -/
def rpcLineDen (m : RpcModel) (lla : LlaCoord) : ℚ :=
  let n := rpcNormalized m lla
  eval_polynomial m.coeffs.line_den_coeff n.1 n.2.1 n.2.2

/-- `samp_den` of `lla_to_image` (rpc.rs line 62). -/
def rpcSampDen (m : RpcModel) (lla : LlaCoord) : ℚ :=
  let n := rpcNormalized m lla
  eval_polynomial m.coeffs.samp_den_coeff n.1 n.2.1 n.2.2

/-- The failure condition of `lla_to_image` (rpc.rs line 64):
`line_den.abs() < 1e-10 || samp_den.abs() < 1e-10`. -/
def rpcDenBad (m : RpcModel) (lla : LlaCoord) : Prop :=
  |rpcLineDen m lla| < 1e-10 ∨ |rpcSampDen m lla| < 1e-10

instance (m : RpcModel) (lla : LlaCoord) : Decidable (rpcDenBad m lla) :=
  inferInstanceAs (Decidable (_ ∨ _))

/-- The success value of `lla_to_image` (rpc.rs lines 59-72): evaluate the
four rational polynomials on the normalized coordinates and denormalize. -/
def rpcProj (m : RpcModel) (lla : LlaCoord) : ℚ × ℚ :=
  let n := rpcNormalized m lla
  let line_num := eval_polynomial m.coeffs.line_num_coeff n.1 n.2.1 n.2.2
  let line_den := eval_polynomial m.coeffs.line_den_coeff n.1 n.2.1 n.2.2
  let samp_num := eval_polynomial m.coeffs.samp_num_coeff n.1 n.2.1 n.2.2
  let samp_den := eval_polynomial m.coeffs.samp_den_coeff n.1 n.2.1 n.2.2
  (line_num / line_den * m.coeffs.line_scale + m.coeffs.line_off,
   samp_num / samp_den * m.coeffs.samp_scale + m.coeffs.samp_off)

/-- `RpcModel::lla_to_image` from rpc.rs lines 52-73. -/
def RpcModel.lla_to_image (m : RpcModel) (lla : LlaCoord) : Except RspError (ℚ × ℚ) :=
  if rpcDenBad m lla then .error (.Projection .InvalidRpc)
  else .ok (rpcProj m lla)

/-- `ground_to_image` from rpc.rs lines 45-49. -/
def RpcModel.ground_to_image (ops : RealOps) (m : RpcModel) (ground_ecef : Vector3) :
    Except RspError (ℚ × ℚ) := do
  let lla ← ecef_to_lla ops ground_ecef
  m.lla_to_image lla

/-- The convergence test of `image_to_lla` (rpc.rs lines 93-97):
`line_err.abs() < 1e-6 && samp_err.abs() < 1e-6` on the residual against
the current iterate's projection. -/
def rpcConverged (m : RpcModel) (line sample height : ℚ) (s : ℚ × ℚ) : Prop :=
  |line - (rpcProj m ⟨s.1, s.2, height⟩).1| < 1e-6
    ∧ |sample - (rpcProj m ⟨s.1, s.2, height⟩).2| < 1e-6

instance (m : RpcModel) (line sample height : ℚ) (s : ℚ × ℚ) :
    Decidable (rpcConverged m line sample height s) :=
  inferInstanceAs (Decidable (_ ∧ _))

/-- The lat-perturbed probe point of `image_to_lla` (rpc.rs line 104),
with finite-difference step `delta = 1e-7`. -/
def rpcLatPlus (height : ℚ) (s : ℚ × ℚ) : LlaCoord := ⟨s.1 + 1e-7, s.2, height⟩

/-- The lon-perturbed probe point of `image_to_lla` (rpc.rs line 109),
with finite-difference step `delta = 1e-7`. -/
def rpcLonPlus (height : ℚ) (s : ℚ × ℚ) : LlaCoord := ⟨s.1, s.2 + 1e-7, height⟩

/-- The forward finite-difference Jacobian determinant of `image_to_lla`
(rpc.rs lines 102-115). -/
def rpcJacDet (m : RpcModel) (height : ℚ) (s : ℚ × ℚ) : ℚ :=
  let delta : ℚ := 1e-7
  let pr := rpcProj m ⟨s.1, s.2, height⟩
  let prLat := rpcProj m (rpcLatPlus height s)
  let prLon := rpcProj m (rpcLonPlus height s)
  let dline_dlat := (prLat.1 - pr.1) / delta
  let dsamp_dlat := (prLat.2 - pr.2) / delta
  let dline_dlon := (prLon.1 - pr.1) / delta
  let dsamp_dlon := (prLon.2 - pr.2) / delta
  dline_dlat * dsamp_dlon - dline_dlon * dsamp_dlat

/-- The singularity test of `image_to_lla` (rpc.rs line 117):
`det.abs() < 1e-10`. -/
def rpcSingular (m : RpcModel) (height : ℚ) (s : ℚ × ℚ) : Prop :=
  |rpcJacDet m height s| < 1e-10

instance (m : RpcModel) (height : ℚ) (s : ℚ × ℚ) :
    Decidable (rpcSingular m height s) :=
  inferInstanceAs (Decidable (_ < _))

/-- One Newton update of `image_to_lla` (rpc.rs lines 102-125): Cramer's
rule on the finite-difference Jacobian, then `lat += dlat; lon += dlon`. -/
def rpcStep (m : RpcModel) (line sample height : ℚ) (s : ℚ × ℚ) : ℚ × ℚ :=
  let delta : ℚ := 1e-7
  let pr := rpcProj m ⟨s.1, s.2, height⟩
  let line_err := line - pr.1
  let samp_err := sample - pr.2
  let prLat := rpcProj m (rpcLatPlus height s)
  let prLon := rpcProj m (rpcLonPlus height s)
  let dline_dlat := (prLat.1 - pr.1) / delta
  let dsamp_dlat := (prLat.2 - pr.2) / delta
  let dline_dlon := (prLon.1 - pr.1) / delta
  let dsamp_dlon := (prLon.2 - pr.2) / delta
  let det := dline_dlat * dsamp_dlon - dline_dlon * dsamp_dlat
  let dlat := (dsamp_dlon * line_err - dline_dlon * samp_err) / det
  let dlon := (dline_dlat * samp_err - dsamp_dlat * line_err) / det
  (s.1 + dlat, s.2 + dlon)

/-- The `for iter in 0..20` loop of `image_to_lla` (rpc.rs lines 89-128)
as fuel-indexed recursion; `iter` is the source's loop counter (it appears
in the `NoConvergence` payload), `fuel = 20 - iter`, and fuel exhaustion
is the post-loop `Err(NoConvergence(20))`.  Every `?` on an inner
`lla_to_image` call becomes an early `InvalidRpc` return, in source
order: current point, convergence test, lat-probe, lon-probe, then the
singularity test. -/
def imageToLlaGo (m : RpcModel) (line sample height : ℚ) :
    ℕ → ℕ → ℚ × ℚ → Except RspError LlaCoord
  | 0, _, _ => .error (.Projection (.NoConvergence 20))
  | n + 1, iter, s =>
      if rpcDenBad m ⟨s.1, s.2, height⟩ then .error (.Projection .InvalidRpc)
      else if rpcConverged m line sample height s then .ok ⟨s.1, s.2, height⟩
      else if rpcDenBad m (rpcLatPlus height s) then .error (.Projection .InvalidRpc)
      else if rpcDenBad m (rpcLonPlus height s) then .error (.Projection .InvalidRpc)
      else if rpcSingular m height s then .error (.Projection (.NoConvergence iter))
      else imageToLlaGo m line sample height n (iter + 1) (rpcStep m line sample height s)

/-- `RpcModel::image_to_lla` from rpc.rs lines 83-129: Newton-Raphson
seeded at the model's own `(lat_off, lon_off)` with the altitude fixed at
`height`, up to 20 iterations. -/
def RpcModel.image_to_lla (m : RpcModel) (line sample height : ℚ) :
    Except RspError LlaCoord :=
  imageToLlaGo m line sample height 20 0 (m.coeffs.lat_off, m.coeffs.lon_off)

/-- `image_to_ground` from rpc.rs lines 77-80. -/
def RpcModel.image_to_ground (ops : RealOps) (m : RpcModel) (line sample height : ℚ) :
    Except RspError Vector3 := do
  let lla ← m.image_to_lla line sample height
  lla_to_ecef ops lla

/-! ## Camera models (src/rsp-core/src/camera/) -/

/-- `PinholeCamera` from pinhole.rs lines 6-14. -/
structure PinholeCamera where
  width : ℕ
  height : ℕ
  fx : ℚ
  fy : ℚ
  cx : ℚ
  cy : ℚ
  distortion : DistortionModel
deriving DecidableEq

/-- `PinholeCamera::new_brown_conrady` from pinhole.rs lines 18-40. -/
def PinholeCamera.new_brown_conrady (width height : ℕ) (fx fy cx cy k1 k2 k3 p1 p2 : ℚ) :
    PinholeCamera :=
  ⟨width, height, fx, fy, cx, cy, .BrownConrady k1 k2 k3 p1 p2⟩

/-- `PinholeCamera::new_ideal` from pinhole.rs lines 43-53. -/
def PinholeCamera.new_ideal (width height : ℕ) (fx fy cx cy : ℚ) : PinholeCamera :=
  ⟨width, height, fx, fy, cx, cy, .None⟩

/-- `FisheyeCamera` from fisheye.rs lines 6-14. -/
structure FisheyeCamera where
  width : ℕ
  height : ℕ
  fx : ℚ
  fy : ℚ
  cx : ℚ
  cy : ℚ
  distortion : DistortionModel
deriving DecidableEq

/-- `FisheyeCamera::new` from fisheye.rs lines 18-39. -/
def FisheyeCamera.new (width height : ℕ) (fx fy cx cy k1 k2 k3 k4 : ℚ) : FisheyeCamera :=
  ⟨width, height, fx, fy, cx, cy, .Fisheye k1 k2 k3 k4⟩

/-- `nalgebra`'s `Vector3::normalize`: divide by the Euclidean norm. -/
def Vector3.normalize (ops : RealOps) (v : Vector3) : Vector3 :=
  let n := ops.sqrt (v.x * v.x + v.y * v.y + v.z * v.z)
  ⟨v.x / n, v.y / n, v.z / n⟩

/-- `CameraModel::project` for `PinholeCamera` (pinhole.rs lines 67-84). -/
def PinholeCamera.project (ops : RealOps) (c : PinholeCamera) (point_camera : Vector3) :
    Option (ℚ × ℚ) :=
  if point_camera.z ≤ 0 then none
  else
    let x_norm := point_camera.x / point_camera.z
    let y_norm := point_camera.y / point_camera.z
    let d := c.distortion.distort ops x_norm y_norm
    some (c.fx * d.1 + c.cx, c.fy * d.2 + c.cy)

/-- `CameraModel::project` for `FisheyeCamera` (fisheye.rs lines 43-57). -/
def FisheyeCamera.project (ops : RealOps) (c : FisheyeCamera) (point_camera : Vector3) :
    Option (ℚ × ℚ) :=
  if point_camera.z ≤ 0 then none
  else
    let x_norm := point_camera.x / point_camera.z
    let y_norm := point_camera.y / point_camera.z
    let d := c.distortion.distort ops x_norm y_norm
    some (c.fx * d.1 + c.cx, c.fy * d.2 + c.cy)

/-- `CameraModel::unproject` for `PinholeCamera` (pinhole.rs lines 86-96),
typed against the `CameraModel` trait declaration (camera/mod.rs line 21:
`fn unproject(&self, pixel: (f64, f64)) -> Result<Vector3<f64>, DistortionError>`).
The shipped impl declares the return type as a bare `Vector3<f64>` and
destructures the `Result` of `undistort` with the irrefutable pattern
`let (x_norm, y_norm) = ...`, which does not type-check against either the
trait or `undistort`; this model keeps the impl's computation and restores
the trait's declared error propagation. -/
def PinholeCamera.unproject (ops : RealOps) (c : PinholeCamera) (pixel : ℚ × ℚ) :
    Except DistortionError Vector3 :=
  let x_dist := (pixel.1 - c.cx) / c.fx
  let y_dist := (pixel.2 - c.cy) / c.fy
  match c.distortion.undistort ops x_dist y_dist with
  | .error e => .error e
  | .ok xy => .ok (Vector3.normalize ops ⟨xy.1, xy.2, 1⟩)

/-- `CameraModel::unproject` for `FisheyeCamera` (fisheye.rs lines 59-66),
typed against the `CameraModel` trait declaration exactly as described at
`PinholeCamera.unproject`. -/
def FisheyeCamera.unproject (ops : RealOps) (c : FisheyeCamera) (pixel : ℚ × ℚ) :
    Except DistortionError Vector3 :=
  let x_dist := (pixel.1 - c.cx) / c.fx
  let y_dist := (pixel.2 - c.cy) / c.fy
  match c.distortion.undistort ops x_dist y_dist with
  | .error e => .error e
  | .ok xy => .ok (Vector3.normalize ops ⟨xy.1, xy.2, 1⟩)

/-- The distorted normalized coordinates computed by `unproject` from a
pixel (pinhole.rs lines 88-89, fisheye.rs lines 60-61): plain divisions by
`fx` and `fy` with no zero guard. -/
def unprojectDist (fx fy cx cy : ℚ) (pixel : ℚ × ℚ) : ℚ × ℚ :=
  ((pixel.1 - cx) / fx, (pixel.2 - cy) / fy)

/-- Finiteness-tracking model of the `f64` division at pinhole.rs line 88:
for a finite dividend, IEEE-754 division by zero is non-finite (±inf or
NaN) and division by a nonzero finite value is finite; `none` marks a
non-finite result. -/
def div64 (a b : ℚ) : Option ℚ := if b = 0 then none else some (a / b)

/-- The affine inversion step of `unproject` under the finiteness-tracking
division model `div64`. -/
def unprojectDist64 (fx fy cx cy : ℚ) (pixel : ℚ × ℚ) : Option ℚ × Option ℚ :=
  (div64 (pixel.1 - cx) fx, div64 (pixel.2 - cy) fy)

/-! ## Loop characterization lemmas for the distortion Newton solver -/

theorem undistortGo_ok_iff (ops : RealOps) (d : DistortionModel) (xd yd : ℚ) :
    ∀ (n : ℕ) (s p : ℚ × ℚ),
      undistortGo ops d xd yd n s = .ok p ↔
        ∃ k, k < n
          ∧ (∀ j, j < k → ¬undistortConverged ops d xd yd ((undistortStep ops d xd yd)^[j] s)
              ∧ ¬undistortSingular ops d ((undistortStep ops d xd yd)^[j] s))
          ∧ undistortConverged ops d xd yd ((undistortStep ops d xd yd)^[k] s)
          ∧ p = (undistortStep ops d xd yd)^[k] s := by
  intro n
  induction n with
  | zero => intro s p; simp [undistortGo]
  | succ n ih =>
      intro s p
      by_cases hc : undistortConverged ops d xd yd s
      · simp only [undistortGo, if_pos hc]
        constructor
        · intro h
          have hp : s = p := by simpa using h
          exact ⟨0, Nat.succ_pos n, fun j hj => absurd hj (Nat.not_lt_zero j),
                 by simpa using hc, by simpa using hp.symm⟩
        · rintro ⟨k, hk, hg, hcv, hp⟩
          cases k with
          | zero =>
              simp only [Function.iterate_zero_apply] at hp
              simp [hp]
          | succ k => exact absurd hc (by simpa using (hg 0 (Nat.succ_pos k)).1)
      · by_cases hs : undistortSingular ops d s
        · simp only [undistortGo, if_neg hc, if_pos hs]
          constructor
          · intro h; simp at h
          · rintro ⟨k, hk, hg, hcv, hp⟩
            cases k with
            | zero => exact absurd (by simpa using hcv) hc
            | succ k => exact absurd hs (by simpa using (hg 0 (Nat.succ_pos k)).2)
        · simp only [undistortGo, if_neg hc, if_neg hs]
          rw [ih (undistortStep ops d xd yd s) p]
          constructor
          · rintro ⟨k, hk, hg, hcv, hp⟩
            refine ⟨k + 1, Nat.succ_lt_succ hk, ?_, ?_, ?_⟩
            · intro j hj
              cases j with
              | zero => exact ⟨by simpa using hc, by simpa using hs⟩
              | succ j =>
                  have h2 := hg j (Nat.lt_of_succ_lt_succ hj)
                  constructor
                  · simpa [Function.iterate_succ_apply] using h2.1
                  · simpa [Function.iterate_succ_apply] using h2.2
            · simpa [Function.iterate_succ_apply] using hcv
            · simpa [Function.iterate_succ_apply] using hp
          · rintro ⟨k, hk, hg, hcv, hp⟩
            cases k with
            | zero => exact absurd (by simpa using hcv) hc
            | succ k =>
                refine ⟨k, Nat.lt_of_succ_lt_succ hk, ?_, ?_, ?_⟩
                · intro j hj
                  have h2 := hg (j + 1) (Nat.succ_lt_succ hj)
                  constructor
                  · simpa [Function.iterate_succ_apply] using h2.1
                  · simpa [Function.iterate_succ_apply] using h2.2
                · simpa [Function.iterate_succ_apply] using hcv
                · simpa [Function.iterate_succ_apply] using hp

theorem undistortGo_sing_iff (ops : RealOps) (d : DistortionModel) (xd yd : ℚ) :
    ∀ (n : ℕ) (s : ℚ × ℚ),
      undistortGo ops d xd yd n s = .error .SingularJacobian ↔
        ∃ k, k < n
          ∧ (∀ j, j < k → ¬undistortConverged ops d xd yd ((undistortStep ops d xd yd)^[j] s)
              ∧ ¬undistortSingular ops d ((undistortStep ops d xd yd)^[j] s))
          ∧ ¬undistortConverged ops d xd yd ((undistortStep ops d xd yd)^[k] s)
          ∧ undistortSingular ops d ((undistortStep ops d xd yd)^[k] s) := by
  intro n
  induction n with
  | zero => intro s; simp [undistortGo]
  | succ n ih =>
      intro s
      by_cases hc : undistortConverged ops d xd yd s
      · simp only [undistortGo, if_pos hc]
        constructor
        · intro h; simp at h
        · rintro ⟨k, hk, hg, hnc, hsg⟩
          cases k with
          | zero => exact absurd hc (by simpa using hnc)
          | succ k => exact absurd hc (by simpa using (hg 0 (Nat.succ_pos k)).1)
      · by_cases hs : undistortSingular ops d s
        · simp only [undistortGo, if_neg hc, if_pos hs]
          constructor
          · intro _
            exact ⟨0, Nat.succ_pos n, fun j hj => absurd hj (Nat.not_lt_zero j),
                   by simpa using hc, by simpa using hs⟩
          · intro _; trivial
        · simp only [undistortGo, if_neg hc, if_neg hs]
          rw [ih (undistortStep ops d xd yd s)]
          constructor
          · rintro ⟨k, hk, hg, hnc, hsg⟩
            refine ⟨k + 1, Nat.succ_lt_succ hk, ?_, ?_, ?_⟩
            · intro j hj
              cases j with
              | zero => exact ⟨by simpa using hc, by simpa using hs⟩
              | succ j =>
                  have h2 := hg j (Nat.lt_of_succ_lt_succ hj)
                  constructor
                  · simpa [Function.iterate_succ_apply] using h2.1
                  · simpa [Function.iterate_succ_apply] using h2.2
            · simpa [Function.iterate_succ_apply] using hnc
            · simpa [Function.iterate_succ_apply] using hsg
          · rintro ⟨k, hk, hg, hnc, hsg⟩
            cases k with
            | zero => exact absurd (by simpa using hsg) hs
            | succ k =>
                refine ⟨k, Nat.lt_of_succ_lt_succ hk, ?_, ?_, ?_⟩
                · intro j hj
                  have h2 := hg (j + 1) (Nat.succ_lt_succ hj)
                  constructor
                  · simpa [Function.iterate_succ_apply] using h2.1
                  · simpa [Function.iterate_succ_apply] using h2.2
                · simpa [Function.iterate_succ_apply] using hnc
                · simpa [Function.iterate_succ_apply] using hsg

theorem undistortGo_nonconv_iff (ops : RealOps) (d : DistortionModel) (xd yd : ℚ) :
    ∀ (n : ℕ) (s : ℚ × ℚ),
      undistortGo ops d xd yd n s = .error .NonConvergent ↔
        ∀ j, j < n → ¬undistortConverged ops d xd yd ((undistortStep ops d xd yd)^[j] s)
            ∧ ¬undistortSingular ops d ((undistortStep ops d xd yd)^[j] s) := by
  intro n
  induction n with
  | zero => intro s; simp [undistortGo]
  | succ n ih =>
      intro s
      by_cases hc : undistortConverged ops d xd yd s
      · simp only [undistortGo, if_pos hc]
        constructor
        · intro h; simp at h
        · intro h; exact absurd hc (by simpa using (h 0 (Nat.succ_pos n)).1)
      · by_cases hs : undistortSingular ops d s
        · simp only [undistortGo, if_neg hc, if_pos hs]
          constructor
          · intro h; simp at h
          · intro h; exact absurd hs (by simpa using (h 0 (Nat.succ_pos n)).2)
        · simp only [undistortGo, if_neg hc, if_neg hs]
          rw [ih (undistortStep ops d xd yd s)]
          constructor
          · intro h j hj
            cases j with
            | zero => exact ⟨by simpa using hc, by simpa using hs⟩
            | succ j =>
                have h2 := h j (Nat.lt_of_succ_lt_succ hj)
                constructor
                · simpa [Function.iterate_succ_apply] using h2.1
                · simpa [Function.iterate_succ_apply] using h2.2
          · intro h j hj
            have h2 := h (j + 1) (Nat.succ_lt_succ hj)
            constructor
            · simpa [Function.iterate_succ_apply] using h2.1
            · simpa [Function.iterate_succ_apply] using h2.2

theorem undistort_ne_none_eq (ops : RealOps) (d : DistortionModel) (hd : d ≠ .None)
    (xd yd : ℚ) :
    d.undistort ops xd yd = undistortGo ops d xd yd 10 (xd, yd) := by
  cases d with
  | None => exact absurd rfl hd
  | BrownConrady k1 k2 k3 p1 p2 => rfl
  | Fisheye k1 k2 k3 k4 => rfl

/-! ## Claim theorems: distortion engine -/

/-- Claim C2: for every non-`None` distortion model and every target
`(x_dist, y_dist)`, `undistort` runs Newton-Raphson starting at
`(x_dist, y_dist)` for at most 10 iterations (the visited trajectory is
`undistortStep^[k] (x_dist, y_dist)`, where each step estimates the 2x2
Jacobian by forward finite differences with step `1e-6` per axis and
solves the update by Cramer's rule); it returns `Ok (x, y)` exactly when a
visited iterate's residual satisfies `|rx| < 1e-8` and `|ry| < 1e-10`,
returns `Err SingularJacobian` exactly when a visited unconverged
iterate's Jacobian has `|det| < 1e-18`, returns `Err NonConvergent`
exactly when all 10 visited iterates neither converge nor go singular,
and `SingularJacobian` and `NonConvergent` are the only errors it can
produce. -/
theorem undistort_characterization (ops : RealOps) (d : DistortionModel)
    (hd : d ≠ .None) (x_dist y_dist : ℚ) :
    (∀ p, d.undistort ops x_dist y_dist = .ok p ↔
        ∃ k, k < 10
          ∧ (∀ j, j < k →
              ¬undistortConverged ops d x_dist y_dist
                  ((undistortStep ops d x_dist y_dist)^[j] (x_dist, y_dist))
              ∧ ¬undistortSingular ops d
                  ((undistortStep ops d x_dist y_dist)^[j] (x_dist, y_dist)))
          ∧ undistortConverged ops d x_dist y_dist
              ((undistortStep ops d x_dist y_dist)^[k] (x_dist, y_dist))
          ∧ p = (undistortStep ops d x_dist y_dist)^[k] (x_dist, y_dist))
    ∧ (d.undistort ops x_dist y_dist = .error .SingularJacobian ↔
        ∃ k, k < 10
          ∧ (∀ j, j < k →
              ¬undistortConverged ops d x_dist y_dist
                  ((undistortStep ops d x_dist y_dist)^[j] (x_dist, y_dist))
              ∧ ¬undistortSingular ops d
                  ((undistortStep ops d x_dist y_dist)^[j] (x_dist, y_dist)))
          ∧ ¬undistortConverged ops d x_dist y_dist
              ((undistortStep ops d x_dist y_dist)^[k] (x_dist, y_dist))
          ∧ undistortSingular ops d
              ((undistortStep ops d x_dist y_dist)^[k] (x_dist, y_dist)))
    ∧ (d.undistort ops x_dist y_dist = .error .NonConvergent ↔
        ∀ j, j < 10 →
          ¬undistortConverged ops d x_dist y_dist
              ((undistortStep ops d x_dist y_dist)^[j] (x_dist, y_dist))
          ∧ ¬undistortSingular ops d
              ((undistortStep ops d x_dist y_dist)^[j] (x_dist, y_dist)))
    ∧ (∀ e, d.undistort ops x_dist y_dist = .error e →
        e = .SingularJacobian ∨ e = .NonConvergent) := by
  rw [undistort_ne_none_eq ops d hd x_dist y_dist]
  refine ⟨fun p => undistortGo_ok_iff ops d x_dist y_dist 10 (x_dist, y_dist) p,
          undistortGo_sing_iff ops d x_dist y_dist 10 (x_dist, y_dist),
          undistortGo_nonconv_iff ops d x_dist y_dist 10 (x_dist, y_dist),
          fun e _ => ?_⟩
  cases e
  · exact Or.inl rfl
  · exact Or.inr rfl

/-- Witness for C2: the Brown-Conrady model with all coefficients zero is
not `None`, and on target `(1/2, 1/3)` the characterization applies; via
its `Ok` direction at `k = 0` (the seed's residual is zero) the solver
returns `Ok (1/2, 1/3)`. -/
theorem undistort_characterization_witness :
    (DistortionModel.BrownConrady 0 0 0 0 0 ≠ DistortionModel.None)
    ∧ (DistortionModel.BrownConrady 0 0 0 0 0).undistort dummyOps (1/2) (1/3)
        = .ok (1/2, 1/3) := by
  refine ⟨by decide, ?_⟩
  refine ((undistort_characterization dummyOps (.BrownConrady 0 0 0 0 0) (by decide)
            (1/2) (1/3)).1 (1/2, 1/3)).mpr
    ⟨0, by norm_num, fun j hj => absurd hj (Nat.not_lt_zero j), ?_, by simp⟩
  simp only [Function.iterate_zero_apply]
  constructor <;>
    norm_num [undistortResidual, undistortConverged, DistortionModel.distort]

/-- Claim C8: for the `None` distortion variant, `distort` is the identity,
`undistort` always returns `Ok`, and the round trip
`undistort (distort (x, y))` returns `(x, y)` exactly (hence within any
positive tolerance such as `1e-12`). -/
theorem none_distort_undistort_roundtrip (ops : RealOps) (x y : ℚ) :
    DistortionModel.None.distort ops x y = (x, y)
    ∧ DistortionModel.None.undistort ops x y = .ok (x, y)
    ∧ DistortionModel.None.undistort ops
        (DistortionModel.None.distort ops x y).1
        (DistortionModel.None.distort ops x y).2 = .ok (x, y) :=
  ⟨rfl, rfl, rfl⟩

/-- Claim C1 (exhibit for the code bug): a Brown-Conrady camera whose
`undistort` fails at the very pixel `unproject` feeds it.  At pixel
`(1, 0)` with `fx = fy = 1`, `cx = cy = 0`, the affine step yields
`(x_dist, y_dist) = (1, 0)`, and with
`k1 = -10^12 / 3000003000001 = -1/(3 + 3e-6 + 1e-12)` the first Newton
iterate's finite-difference Jacobian determinant is exactly zero, so
`undistort` returns `Err SingularJacobian`.  Under the `CameraModel`
trait's declared signature this error must be propagated by `unproject`
(modelled here); the shipped impl's bare `Vector3` return type cannot
represent it. -/
theorem pinhole_unproject_propagates_distortion_error :
    (PinholeCamera.new_brown_conrady 100 100 1 1 0 0
        (-(10^12) / 3000003000001) 0 0 0 0).unproject dummyOps (1, 0)
      = .error .SingularJacobian := by
  have harg1 : ((1 : ℚ) - 0) / 1 = 1 := by norm_num
  have harg2 : ((0 : ℚ) - 0) / 1 = 0 := by norm_num
  have h : (DistortionModel.BrownConrady (-(10^12) / 3000003000001) 0 0 0 0).undistort
      dummyOps 1 0 = .error .SingularJacobian := by
    rw [undistort_ne_none_eq dummyOps _ (by decide) 1 0]
    refine (undistortGo_sing_iff dummyOps _ 1 0 10 (1, 0)).mpr
      ⟨0, by norm_num, fun j hj => absurd hj (Nat.not_lt_zero j), ?_, ?_⟩
    · simp only [Function.iterate_zero_apply]
      intro hcv
      have h1 := hcv.1
      simp only [undistortConverged, undistortResidual, DistortionModel.distort] at h1
      rw [abs_lt] at h1
      norm_num at h1
    · simp only [Function.iterate_zero_apply]
      norm_num [undistortSingular, undistortJacDet, DistortionModel.distort]
  simp only [PinholeCamera.unproject, PinholeCamera.new_brown_conrady, harg1, harg2, h]

/-! ## Loop characterization lemmas for the RPC Newton solver -/

/-- A full pass of the `image_to_lla` loop body that reaches the update:
the current point projects, is not converged, both probe points project,
and the Jacobian is not singular. -/
def rpcStepComplete (m : RpcModel) (line sample height : ℚ) (s : ℚ × ℚ) : Prop :=
  ¬rpcDenBad m ⟨s.1, s.2, height⟩
  ∧ ¬rpcConverged m line sample height s
  ∧ ¬rpcDenBad m (rpcLatPlus height s)
  ∧ ¬rpcDenBad m (rpcLonPlus height s)
  ∧ ¬rpcSingular m height s

instance (m : RpcModel) (line sample height : ℚ) (s : ℚ × ℚ) :
    Decidable (rpcStepComplete m line sample height s) :=
  inferInstanceAs (Decidable (_ ∧ _))

theorem imageToLlaGo_ok_iff (m : RpcModel) (line sample height : ℚ) :
    ∀ (n iter : ℕ) (s : ℚ × ℚ) (lla : LlaCoord),
      imageToLlaGo m line sample height n iter s = .ok lla ↔
        ∃ k, k < n
          ∧ (∀ j, j < k →
              rpcStepComplete m line sample height
                ((rpcStep m line sample height)^[j] s))
          ∧ ¬rpcDenBad m ⟨((rpcStep m line sample height)^[k] s).1,
                          ((rpcStep m line sample height)^[k] s).2, height⟩
          ∧ rpcConverged m line sample height ((rpcStep m line sample height)^[k] s)
          ∧ lla = ⟨((rpcStep m line sample height)^[k] s).1,
                   ((rpcStep m line sample height)^[k] s).2, height⟩ := by
  intro n
  induction n with
  | zero => intro iter s lla; simp [imageToLlaGo]
  | succ n ih =>
      intro iter s lla
      by_cases hdb : rpcDenBad m ⟨s.1, s.2, height⟩
      · simp only [imageToLlaGo, if_pos hdb]
        constructor
        · intro h; simp at h
        · rintro ⟨k, hk, hg, hnd, hcv, hl⟩
          cases k with
          | zero => exact absurd hdb (by simpa using hnd)
          | succ k => exact absurd hdb (by simpa using (hg 0 (Nat.succ_pos k)).1)
      · by_cases hcv : rpcConverged m line sample height s
        · simp only [imageToLlaGo, if_neg hdb, if_pos hcv]
          constructor
          · intro h
            have hl : lla = ⟨s.1, s.2, height⟩ := by
              have := h
              simp only [Except.ok.injEq] at this
              exact this.symm
            exact ⟨0, Nat.succ_pos n, fun j hj => absurd hj (Nat.not_lt_zero j),
                   by simpa using hdb, by simpa using hcv, by simpa using hl⟩
          · rintro ⟨k, hk, hg, hnd, hcv2, hl⟩
            cases k with
            | zero =>
                simp only [Function.iterate_zero_apply] at hl
                simp [hl]
            | succ k => exact absurd hcv (by simpa using (hg 0 (Nat.succ_pos k)).2.1)
        · by_cases hlat : rpcDenBad m (rpcLatPlus height s)
          · simp only [imageToLlaGo, if_neg hdb, if_neg hcv, if_pos hlat]
            constructor
            · intro h; simp at h
            · rintro ⟨k, hk, hg, hnd, hcv2, hl⟩
              cases k with
              | zero => exact absurd (by simpa using hcv2) hcv
              | succ k => exact absurd hlat (by simpa using (hg 0 (Nat.succ_pos k)).2.2.1)
          · by_cases hlon : rpcDenBad m (rpcLonPlus height s)
            · simp only [imageToLlaGo, if_neg hdb, if_neg hcv, if_neg hlat, if_pos hlon]
              constructor
              · intro h; simp at h
              · rintro ⟨k, hk, hg, hnd, hcv2, hl⟩
                cases k with
                | zero => exact absurd (by simpa using hcv2) hcv
                | succ k =>
                    exact absurd hlon (by simpa using (hg 0 (Nat.succ_pos k)).2.2.2.1)
            · by_cases hsg : rpcSingular m height s
              · simp only [imageToLlaGo, if_neg hdb, if_neg hcv, if_neg hlat,
                  if_neg hlon, if_pos hsg]
                constructor
                · intro h; simp at h
                · rintro ⟨k, hk, hg, hnd, hcv2, hl⟩
                  cases k with
                  | zero => exact absurd (by simpa using hcv2) hcv
                  | succ k =>
                      exact absurd hsg (by simpa using (hg 0 (Nat.succ_pos k)).2.2.2.2)
              · simp only [imageToLlaGo, if_neg hdb, if_neg hcv, if_neg hlat,
                  if_neg hlon, if_neg hsg]
                rw [ih (iter + 1) (rpcStep m line sample height s) lla]
                constructor
                · rintro ⟨k, hk, hg, hnd, hcv2, hl⟩
                  refine ⟨k + 1, Nat.succ_lt_succ hk, ?_, ?_, ?_, ?_⟩
                  · intro j hj
                    cases j with
                    | zero =>
                        refine ⟨by simpa using hdb, by simpa using hcv,
                                by simpa using hlat, by simpa using hlon,
                                by simpa using hsg⟩
                    | succ j =>
                        have h2 := hg j (Nat.lt_of_succ_lt_succ hj)
                        simpa [Function.iterate_succ_apply] using h2
                  · simpa [Function.iterate_succ_apply] using hnd
                  · simpa [Function.iterate_succ_apply] using hcv2
                  · simpa [Function.iterate_succ_apply] using hl
                · rintro ⟨k, hk, hg, hnd, hcv2, hl⟩
                  cases k with
                  | zero => exact absurd (by simpa using hcv2) hcv
                  | succ k =>
                      refine ⟨k, Nat.lt_of_succ_lt_succ hk, ?_, ?_, ?_, ?_⟩
                      · intro j hj
                        have h2 := hg (j + 1) (Nat.succ_lt_succ hj)
                        simpa [Function.iterate_succ_apply] using h2
                      · simpa [Function.iterate_succ_apply] using hnd
                      · simpa [Function.iterate_succ_apply] using hcv2
                      · simpa [Function.iterate_succ_apply] using hl

theorem imageToLlaGo_exhaust_iff (m : RpcModel) (line sample height : ℚ) :
    ∀ (n iter : ℕ) (s : ℚ × ℚ), iter + n ≤ 20 →
      (imageToLlaGo m line sample height n iter s
          = .error (.Projection (.NoConvergence 20)) ↔
        ∀ j, j < n →
          rpcStepComplete m line sample height ((rpcStep m line sample height)^[j] s)) := by
  intro n
  induction n with
  | zero => intro iter s hle; simp [imageToLlaGo]
  | succ n ih =>
      intro iter s hle
      by_cases hdb : rpcDenBad m ⟨s.1, s.2, height⟩
      · simp only [imageToLlaGo, if_pos hdb]
        constructor
        · intro h; simp at h
        · intro h; exact absurd hdb (by simpa using (h 0 (Nat.succ_pos n)).1)
      · by_cases hcv : rpcConverged m line sample height s
        · simp only [imageToLlaGo, if_neg hdb, if_pos hcv]
          constructor
          · intro h; simp at h
          · intro h; exact absurd hcv (by simpa using (h 0 (Nat.succ_pos n)).2.1)
        · by_cases hlat : rpcDenBad m (rpcLatPlus height s)
          · simp only [imageToLlaGo, if_neg hdb, if_neg hcv, if_pos hlat]
            constructor
            · intro h; simp at h
            · intro h; exact absurd hlat (by simpa using (h 0 (Nat.succ_pos n)).2.2.1)
          · by_cases hlon : rpcDenBad m (rpcLonPlus height s)
            · simp only [imageToLlaGo, if_neg hdb, if_neg hcv, if_neg hlat, if_pos hlon]
              constructor
              · intro h; simp at h
              · intro h; exact absurd hlon (by simpa using (h 0 (Nat.succ_pos n)).2.2.2.1)
            · by_cases hsg : rpcSingular m height s
              · simp only [imageToLlaGo, if_neg hdb, if_neg hcv, if_neg hlat,
                  if_neg hlon, if_pos hsg]
                constructor
                · intro h
                  have : iter = 20 := by
                    simpa using h
                  omega
                · intro h; exact absurd hsg (by simpa using (h 0 (Nat.succ_pos n)).2.2.2.2)
              · simp only [imageToLlaGo, if_neg hdb, if_neg hcv, if_neg hlat,
                  if_neg hlon, if_neg hsg]
                rw [ih (iter + 1) (rpcStep m line sample height s) (by omega)]
                constructor
                · intro h j hj
                  cases j with
                  | zero =>
                      refine ⟨by simpa using hdb, by simpa using hcv,
                              by simpa using hlat, by simpa using hlon,
                              by simpa using hsg⟩
                  | succ j =>
                      have h2 := h j (Nat.lt_of_succ_lt_succ hj)
                      simpa [Function.iterate_succ_apply] using h2
                · intro h j hj
                  have h2 := h (j + 1) (Nat.succ_lt_succ hj)
                  simpa [Function.iterate_succ_apply] using h2

theorem imageToLlaGo_singular_iff (m : RpcModel) (line sample height : ℚ) :
    ∀ (n iter : ℕ) (s : ℚ × ℚ), iter + n ≤ 20 → ∀ i, i < 20 →
      (imageToLlaGo m line sample height n iter s
          = .error (.Projection (.NoConvergence i)) ↔
        ∃ k, k < n ∧ i = iter + k
          ∧ (∀ j, j < k →
              rpcStepComplete m line sample height ((rpcStep m line sample height)^[j] s))
          ∧ ¬rpcDenBad m ⟨((rpcStep m line sample height)^[k] s).1,
                          ((rpcStep m line sample height)^[k] s).2, height⟩
          ∧ ¬rpcConverged m line sample height ((rpcStep m line sample height)^[k] s)
          ∧ ¬rpcDenBad m (rpcLatPlus height ((rpcStep m line sample height)^[k] s))
          ∧ ¬rpcDenBad m (rpcLonPlus height ((rpcStep m line sample height)^[k] s))
          ∧ rpcSingular m height ((rpcStep m line sample height)^[k] s)) := by
  intro n
  induction n with
  | zero =>
      intro iter s hle i hi
      constructor
      · intro h
        have : (20 : ℕ) = i := by simpa [imageToLlaGo] using h
        omega
      · rintro ⟨k, hk, -⟩
        exact absurd hk (Nat.not_lt_zero k)
  | succ n ih =>
      intro iter s hle i hi
      by_cases hdb : rpcDenBad m ⟨s.1, s.2, height⟩
      · simp only [imageToLlaGo, if_pos hdb]
        constructor
        · intro h; simp at h
        · rintro ⟨k, hk, hik, hg, hnd, hncv, hnlat, hnlon, hsg⟩
          cases k with
          | zero => exact absurd hdb (by simpa using hnd)
          | succ k => exact absurd hdb (by simpa using (hg 0 (Nat.succ_pos k)).1)
      · by_cases hcv : rpcConverged m line sample height s
        · simp only [imageToLlaGo, if_neg hdb, if_pos hcv]
          constructor
          · intro h; simp at h
          · rintro ⟨k, hk, hik, hg, hnd, hncv, hnlat, hnlon, hsg⟩
            cases k with
            | zero => exact absurd hcv (by simpa using hncv)
            | succ k => exact absurd hcv (by simpa using (hg 0 (Nat.succ_pos k)).2.1)
        · by_cases hlat : rpcDenBad m (rpcLatPlus height s)
          · simp only [imageToLlaGo, if_neg hdb, if_neg hcv, if_pos hlat]
            constructor
            · intro h; simp at h
            · rintro ⟨k, hk, hik, hg, hnd, hncv, hnlat, hnlon, hsg⟩
              cases k with
              | zero => exact absurd hlat (by simpa using hnlat)
              | succ k => exact absurd hlat (by simpa using (hg 0 (Nat.succ_pos k)).2.2.1)
          · by_cases hlon : rpcDenBad m (rpcLonPlus height s)
            · simp only [imageToLlaGo, if_neg hdb, if_neg hcv, if_neg hlat, if_pos hlon]
              constructor
              · intro h; simp at h
              · rintro ⟨k, hk, hik, hg, hnd, hncv, hnlat, hnlon, hsg⟩
                cases k with
                | zero => exact absurd hlon (by simpa using hnlon)
                | succ k => exact absurd hlon (by simpa using (hg 0 (Nat.succ_pos k)).2.2.2.1)
            · by_cases hsg : rpcSingular m height s
              · simp only [imageToLlaGo, if_neg hdb, if_neg hcv, if_neg hlat,
                  if_neg hlon, if_pos hsg]
                constructor
                · intro h
                  have hii : iter = i := by simpa using h
                  exact ⟨0, Nat.succ_pos n, by omega,
                         fun j hj => absurd hj (Nat.not_lt_zero j),
                         by simpa using hdb, by simpa using hcv,
                         by simpa using hlat, by simpa using hlon, by simpa using hsg⟩
                · rintro ⟨k, hk, hik, hg, hnd, hncv, hnlat, hnlon, hsg2⟩
                  cases k with
                  | zero =>
                      have : i = iter := by omega
                      simp [this]
                  | succ k => exact absurd hsg (by simpa using (hg 0 (Nat.succ_pos k)).2.2.2.2)
              · simp only [imageToLlaGo, if_neg hdb, if_neg hcv, if_neg hlat,
                  if_neg hlon, if_neg hsg]
                rw [ih (iter + 1) (rpcStep m line sample height s) (by omega) i hi]
                constructor
                · rintro ⟨k, hk, hik, hg, hnd, hncv, hnlat, hnlon, hsg2⟩
                  refine ⟨k + 1, Nat.succ_lt_succ hk, by omega, ?_, ?_, ?_, ?_, ?_, ?_⟩
                  · intro j hj
                    cases j with
                    | zero =>
                        refine ⟨by simpa using hdb, by simpa using hcv,
                                by simpa using hlat, by simpa using hlon,
                                by simpa using hsg⟩
                    | succ j =>
                        have h2 := hg j (Nat.lt_of_succ_lt_succ hj)
                        simpa [Function.iterate_succ_apply] using h2
                  · simpa [Function.iterate_succ_apply] using hnd
                  · simpa [Function.iterate_succ_apply] using hncv
                  · simpa [Function.iterate_succ_apply] using hnlat
                  · simpa [Function.iterate_succ_apply] using hnlon
                  · simpa [Function.iterate_succ_apply] using hsg2
                · rintro ⟨k, hk, hik, hg, hnd, hncv, hnlat, hnlon, hsg2⟩
                  cases k with
                  | zero =>
                      exact absurd hsg (by simpa using hsg2)
                  | succ k =>
                      refine ⟨k, Nat.lt_of_succ_lt_succ hk, by omega, ?_, ?_, ?_, ?_, ?_, ?_⟩
                      · intro j hj
                        have h2 := hg (j + 1) (Nat.succ_lt_succ hj)
                        simpa [Function.iterate_succ_apply] using h2
                      · simpa [Function.iterate_succ_apply] using hnd
                      · simpa [Function.iterate_succ_apply] using hncv
                      · simpa [Function.iterate_succ_apply] using hnlat
                      · simpa [Function.iterate_succ_apply] using hnlon
                      · simpa [Function.iterate_succ_apply] using hsg2

/-! ## Claim theorems: RPC sensor model -/

/-- `line_num` of `lla_to_image` (rpc.rs line 59). -/
def rpcLineNum (m : RpcModel) (lla : LlaCoord) : ℚ :=
  let n := rpcNormalized m lla
  eval_polynomial m.coeffs.line_num_coeff n.1 n.2.1 n.2.2

/-- `samp_num` of `lla_to_image` (rpc.rs line 61). -/
def rpcSampNum (m : RpcModel) (lla : LlaCoord) : ℚ :=
  let n := rpcNormalized m lla
  eval_polynomial m.coeffs.samp_num_coeff n.1 n.2.1 n.2.2

/-- Modelled from the spec: the four RPC polynomials evaluate the sum of
coefficient `i` times the `i`-th term of the fixed monomial basis in the
spec's stated order 1, l, p, h, lp, lh, ph, l^2, p^2, h^2, plh, l^3, lp^2,
lh^2, l^2p, p^3, ph^2, l^2h, p^2h, h^3; to be compared with the source's
`eval_polynomial`. -/
def eval_polynomial_spec (c : Fin 20 → ℚ) (p l h : ℚ) : ℚ :=
  c 0 * 1 + c 1 * l + c 2 * p + c 3 * h + c 4 * (l * p) + c 5 * (l * h)
    + c 6 * (p * h) + c 7 * l ^ 2 + c 8 * p ^ 2 + c 9 * h ^ 2
    + c 10 * (p * l * h) + c 11 * l ^ 3 + c 12 * (l * p ^ 2)
    + c 13 * (l * h ^ 2) + c 14 * (l ^ 2 * p) + c 15 * p ^ 3
    + c 16 * (p * h ^ 2) + c 17 * (l ^ 2 * h) + c 18 * (p ^ 2 * h)
    + c 19 * h ^ 3

/-- Claim C5: `lla_to_image` normalizes `(lon, lat, alt)` by the model's
offset/scale pairs into `(p, l, h)`; the 20-term polynomials pair
coefficient `i` with the `i`-th term of the spec's monomial basis (the
source's `eval_polynomial` coincides with the spec-ordered
`eval_polynomial_spec`); it returns `Err InvalidRpc` exactly when either
evaluated denominator's magnitude is below `1e-10`; otherwise it returns
`Ok (line_num/line_den * line_scale + line_off, samp_num/samp_den *
samp_scale + samp_off)`. -/
theorem lla_to_image_spec (m : RpcModel) (lla : LlaCoord) :
    rpcNormalized m lla
      = ((lla.lon - m.coeffs.lon_off) / m.coeffs.lon_scale,
         (lla.lat - m.coeffs.lat_off) / m.coeffs.lat_scale,
         (lla.alt - m.coeffs.height_off) / m.coeffs.height_scale)
    ∧ (∀ (c : Fin 20 → ℚ) (p l h : ℚ),
        eval_polynomial c p l h = eval_polynomial_spec c p l h)
    ∧ (m.lla_to_image lla = .error (.Projection .InvalidRpc) ↔
        |rpcLineDen m lla| < 1e-10 ∨ |rpcSampDen m lla| < 1e-10)
    ∧ (¬(|rpcLineDen m lla| < 1e-10 ∨ |rpcSampDen m lla| < 1e-10) →
        m.lla_to_image lla = .ok
          (rpcLineNum m lla / rpcLineDen m lla * m.coeffs.line_scale
             + m.coeffs.line_off,
           rpcSampNum m lla / rpcSampDen m lla * m.coeffs.samp_scale
             + m.coeffs.samp_off)) := by
  refine ⟨rfl, ?_, ?_, ?_⟩
  · intro c p l h
    simp only [eval_polynomial, eval_polynomial_spec]
    ring
  · constructor
    · intro h
      by_contra hnb
      have : rpcDenBad m lla := by
        by_contra hb
        simp only [RpcModel.lla_to_image, if_neg hb] at h
        exact Except.noConfusion h
      exact hnb this
    · intro h
      have hb : rpcDenBad m lla := h
      simp only [RpcModel.lla_to_image, if_pos hb]
  · intro h
    have hb : ¬rpcDenBad m lla := h
    simp only [RpcModel.lla_to_image, if_neg hb]
    rfl

/-- The synthetic linear RPC model of the rpc.rs test suite
(`create_simple_rpc`, rpc.rs lines 161-186): `line` responds linearly to
normalized latitude, `samp` to normalized longitude, unit denominators. -/
def simpleRpc : RpcModel :=
  RpcModel.new
    { line_num_coeff := fun i => if i = 1 then 1 else 0
      line_den_coeff := fun i => if i = 0 then 1 else 0
      samp_num_coeff := fun i => if i = 2 then 1 else 0
      samp_den_coeff := fun i => if i = 0 then 1 else 0
      lat_off := 39
      lat_scale := 1
      lon_off := -77
      lon_scale := 1
      height_off := 100
      height_scale := 500
      line_off := 5000
      line_scale := 5000
      samp_off := 5000
      samp_scale := 5000 }

/-- Witness for C5: on the simple linear RPC at `(39.1, -76.9, 100)` the
denominators evaluate to 1, the no-failure branch applies, and the claimed
formula evaluates to `(5500, 5500)`. -/
theorem lla_to_image_spec_witness :
    ¬(|rpcLineDen simpleRpc ⟨391/10, -769/10, 100⟩| < 1e-10
        ∨ |rpcSampDen simpleRpc ⟨391/10, -769/10, 100⟩| < 1e-10)
    ∧ simpleRpc.lla_to_image ⟨391/10, -769/10, 100⟩ = .ok (5500, 5500) := by
  have hden : ¬(|rpcLineDen simpleRpc ⟨391/10, -769/10, 100⟩| < 1e-10
      ∨ |rpcSampDen simpleRpc ⟨391/10, -769/10, 100⟩| < 1e-10) := by
    simp [rpcLineDen, rpcSampDen, rpcNormalized, eval_polynomial, simpleRpc,
      RpcModel.new]
    norm_num
  refine ⟨hden, ?_⟩
  have h := (lla_to_image_spec simpleRpc ⟨391/10, -769/10, 100⟩).2.2.2 hden
  rw [h]
  have h1 : rpcLineNum simpleRpc ⟨391/10, -769/10, 100⟩ = 1/10 := by
    simp [rpcLineNum, rpcNormalized, eval_polynomial, simpleRpc, RpcModel.new]
    norm_num
  have h2 : rpcSampNum simpleRpc ⟨391/10, -769/10, 100⟩ = 1/10 := by
    simp [rpcSampNum, rpcNormalized, eval_polynomial, simpleRpc, RpcModel.new]
    norm_num
  have h3 : rpcLineDen simpleRpc ⟨391/10, -769/10, 100⟩ = 1 := by
    simp [rpcLineDen, rpcNormalized, eval_polynomial, simpleRpc, RpcModel.new]
  have h4 : rpcSampDen simpleRpc ⟨391/10, -769/10, 100⟩ = 1 := by
    simp [rpcSampDen, rpcNormalized, eval_polynomial, simpleRpc, RpcModel.new]
  rw [h1, h2, h3, h4]
  norm_num [simpleRpc, RpcModel.new]

/-- Claim C3: `image_to_lla` seeds Newton-Raphson at
`(lat_off, lon_off)` with the altitude fixed at `height` (the visited
trajectory is `rpcStep^[k] (lat_off, lon_off)`, each step using a forward
finite-difference Jacobian with step `1e-7` perturbing lat and lon
independently and a Cramer's-rule 2x2 solve), runs at most 20 iterations;
it returns `Ok` exactly when a visited iterate satisfies
`|line_err| < 1e-6` and `|samp_err| < 1e-6`; it returns
`Err (NoConvergence i)` with `i < 20` exactly when the visited unconverged
iterate `i` has Jacobian `|det| < 1e-10` (after its probe projections
succeed); and it returns `Err (NoConvergence 20)` exactly when all 20
iterations complete without meeting tolerance. -/
theorem image_to_lla_characterization (m : RpcModel) (line sample height : ℚ) :
    (∀ lla, m.image_to_lla line sample height = .ok lla ↔
        ∃ k, k < 20
          ∧ (∀ j, j < k →
              rpcStepComplete m line sample height
                ((rpcStep m line sample height)^[j] (m.coeffs.lat_off, m.coeffs.lon_off)))
          ∧ ¬rpcDenBad m
              ⟨((rpcStep m line sample height)^[k] (m.coeffs.lat_off, m.coeffs.lon_off)).1,
               ((rpcStep m line sample height)^[k] (m.coeffs.lat_off, m.coeffs.lon_off)).2,
               height⟩
          ∧ rpcConverged m line sample height
              ((rpcStep m line sample height)^[k] (m.coeffs.lat_off, m.coeffs.lon_off))
          ∧ lla =
              ⟨((rpcStep m line sample height)^[k] (m.coeffs.lat_off, m.coeffs.lon_off)).1,
               ((rpcStep m line sample height)^[k] (m.coeffs.lat_off, m.coeffs.lon_off)).2,
               height⟩)
    ∧ (∀ i, i < 20 →
        (m.image_to_lla line sample height = .error (.Projection (.NoConvergence i)) ↔
          (∀ j, j < i →
              rpcStepComplete m line sample height
                ((rpcStep m line sample height)^[j] (m.coeffs.lat_off, m.coeffs.lon_off)))
          ∧ ¬rpcDenBad m
              ⟨((rpcStep m line sample height)^[i] (m.coeffs.lat_off, m.coeffs.lon_off)).1,
               ((rpcStep m line sample height)^[i] (m.coeffs.lat_off, m.coeffs.lon_off)).2,
               height⟩
          ∧ ¬rpcConverged m line sample height
              ((rpcStep m line sample height)^[i] (m.coeffs.lat_off, m.coeffs.lon_off))
          ∧ ¬rpcDenBad m (rpcLatPlus height
              ((rpcStep m line sample height)^[i] (m.coeffs.lat_off, m.coeffs.lon_off)))
          ∧ ¬rpcDenBad m (rpcLonPlus height
              ((rpcStep m line sample height)^[i] (m.coeffs.lat_off, m.coeffs.lon_off)))
          ∧ rpcSingular m height
              ((rpcStep m line sample height)^[i] (m.coeffs.lat_off, m.coeffs.lon_off))))
    ∧ (m.image_to_lla line sample height = .error (.Projection (.NoConvergence 20)) ↔
        ∀ j, j < 20 →
          rpcStepComplete m line sample height
            ((rpcStep m line sample height)^[j] (m.coeffs.lat_off, m.coeffs.lon_off))) := by
  refine ⟨fun lla => imageToLlaGo_ok_iff m line sample height 20 0
            (m.coeffs.lat_off, m.coeffs.lon_off) lla,
          fun i hi => ?_,
          imageToLlaGo_exhaust_iff m line sample height 20 0
            (m.coeffs.lat_off, m.coeffs.lon_off) (by omega)⟩
  constructor
  · intro h
    obtain ⟨k, hk, hik, hg, h1, h2, h3, h4, h5⟩ :=
      (imageToLlaGo_singular_iff m line sample height 20 0
        (m.coeffs.lat_off, m.coeffs.lon_off) (by omega) i hi).mp h
    have hki : k = i := by omega
    subst hki
    exact ⟨hg, h1, h2, h3, h4, h5⟩
  · rintro ⟨hg, h1, h2, h3, h4, h5⟩
    exact (imageToLlaGo_singular_iff m line sample height 20 0
      (m.coeffs.lat_off, m.coeffs.lon_off) (by omega) i hi).mpr
      ⟨i, hi, by omega, hg, h1, h2, h3, h4, h5⟩

/-- Witness for C3: on the simple linear RPC, targeting the image point of
the seed itself, the characterization at `k = 0` (where `0 < 20`) shows
`image_to_lla` converges immediately and returns the seed
`(lat_off, lon_off) = (39, -77)` at the requested height. -/
theorem image_to_lla_characterization_witness :
    (0 : ℕ) < 20
    ∧ simpleRpc.image_to_lla 5000 5000 100 = .ok ⟨39, -77, 100⟩ := by
  refine ⟨by norm_num, ?_⟩
  refine ((image_to_lla_characterization simpleRpc 5000 5000 100).1 ⟨39, -77, 100⟩).mpr
    ⟨0, by norm_num, fun j hj => absurd hj (Nat.not_lt_zero j), ?_, ?_, ?_⟩
  · simp only [Function.iterate_zero_apply]
    simp [rpcDenBad, rpcLineDen, rpcSampDen, rpcNormalized, eval_polynomial,
      simpleRpc, RpcModel.new]
    norm_num
  · simp only [Function.iterate_zero_apply]
    constructor <;>
      · simp [rpcConverged, rpcProj, rpcNormalized, eval_polynomial, simpleRpc,
          RpcModel.new]
        norm_num
  · simp [simpleRpc, RpcModel.new]

/-- The simple linear RPC with its latitude offset moved to 95 degrees:
all projections remain well-defined even though the latitude is outside
the geodetically valid range. -/
def lat95Rpc : RpcModel :=
  RpcModel.new
    { line_num_coeff := fun i => if i = 1 then 1 else 0
      line_den_coeff := fun i => if i = 0 then 1 else 0
      samp_num_coeff := fun i => if i = 2 then 1 else 0
      samp_den_coeff := fun i => if i = 0 then 1 else 0
      lat_off := 95
      lat_scale := 1
      lon_off := -77
      lon_scale := 1
      height_off := 100
      height_scale := 500
      line_off := 5000
      line_scale := 5000
      samp_off := 5000
      samp_scale := 5000 }

/-- Claim C10: `lla_to_image` performs no latitude or longitude range
validation: for every model and every `LlaCoord` it succeeds exactly when
both denominator magnitudes are at least `1e-10`, with no condition on lat
or lon; in particular the `lat95Rpc` model accepts latitude 95 (outside
`[-90, 90]`), and its `image_to_lla` converges to and returns latitude 95
with no `InvalidLatitude` error. -/
theorem lla_to_image_no_range_validation :
    (∀ (m : RpcModel) (lla : LlaCoord),
        (∃ r, m.lla_to_image lla = .ok r) ↔
          ¬(|rpcLineDen m lla| < 1e-10 ∨ |rpcSampDen m lla| < 1e-10))
    ∧ (95 : ℚ) > 90
    ∧ lat95Rpc.lla_to_image ⟨95, -77, 100⟩ = .ok (5000, 5000)
    ∧ lat95Rpc.image_to_lla 5000 5000 100 = .ok ⟨95, -77, 100⟩ := by
  refine ⟨?_, by norm_num, ?_, ?_⟩
  · intro m lla
    constructor
    · rintro ⟨r, hr⟩
      intro hb
      have hb2 : rpcDenBad m lla := hb
      simp only [RpcModel.lla_to_image, if_pos hb2] at hr
      exact Except.noConfusion hr
    · intro hb
      have hb2 : ¬rpcDenBad m lla := hb
      exact ⟨rpcProj m lla, by simp only [RpcModel.lla_to_image, if_neg hb2]⟩
  · have hb2 : ¬rpcDenBad lat95Rpc ⟨95, -77, 100⟩ := by
      simp [rpcDenBad, rpcLineDen, rpcSampDen, rpcNormalized, eval_polynomial,
        lat95Rpc, RpcModel.new]
      norm_num
    simp only [RpcModel.lla_to_image, if_neg hb2]
    have : rpcProj lat95Rpc ⟨95, -77, 100⟩ = (5000, 5000) := by
      simp [rpcProj, rpcNormalized, eval_polynomial, lat95Rpc, RpcModel.new]
    rw [this]
  · refine (imageToLlaGo_ok_iff lat95Rpc 5000 5000 100 20 0
      (lat95Rpc.coeffs.lat_off, lat95Rpc.coeffs.lon_off) ⟨95, -77, 100⟩).mpr
      ⟨0, by norm_num, fun j hj => absurd hj (Nat.not_lt_zero j), ?_, ?_, ?_⟩
    · simp only [Function.iterate_zero_apply]
      simp [rpcDenBad, rpcLineDen, rpcSampDen, rpcNormalized, eval_polynomial,
        lat95Rpc, RpcModel.new]
      norm_num
    · simp only [Function.iterate_zero_apply]
      constructor <;>
        · simp [rpcConverged, rpcProj, rpcNormalized, eval_polynomial, lat95Rpc,
            RpcModel.new]
          norm_num
    · simp [lat95Rpc, RpcModel.new]

/-! ## Claim theorems: ellipsoid transform -/

theorem ecefLoop_eq_iterate (ops : RealOps) (z p : ℚ) :
    ∀ (n : ℕ) (s : ℚ × ℚ), ecefLoop ops z p n s = (ecefStep ops z p)^[n] s := by
  intro n
  induction n with
  | zero => intro s; rfl
  | succ n ih =>
      intro s
      rw [show ecefLoop ops z p (n + 1) s = ecefLoop ops z p n (ecefStep ops z p s) from rfl,
          ih, Function.iterate_succ_apply]

/-- Claim C4: `ecef_to_lla` computes longitude as `atan2(y, x)` (converted
to degrees), seeds latitude at `atan(z/p)` with `p = sqrt(x^2 + y^2)`,
runs exactly 10 unconditional fixed-point iterations (`ecefLoop` is the
plain 10-fold iterate of `ecefStep`, with no early-exit convergence
check), and afterwards fails with `InvalidLatitude` exactly when the
resulting latitude in degrees lies outside `[-90, 90]`; otherwise it
returns the iterated latitude, the closed-form longitude, and the
iterated altitude. -/
theorem ecef_to_lla_spec (ops : RealOps) (ecef : Vector3) :
    (∀ (n : ℕ) (s : ℚ × ℚ),
        ecefLoop ops ecef.z (ops.sqrt (ecef.x * ecef.x + ecef.y * ecef.y)) n s
          = (ecefStep ops ecef.z (ops.sqrt (ecef.x * ecef.x + ecef.y * ecef.y)))^[n] s)
    ∧ (ecef_to_lla ops ecef = .error (.CoordinateTransform (.InvalidLatitude
          (ops.toDegrees ((ecefStep ops ecef.z
              (ops.sqrt (ecef.x * ecef.x + ecef.y * ecef.y)))^[10]
              (ops.atan (ecef.z / ops.sqrt (ecef.x * ecef.x + ecef.y * ecef.y)), 0)).1)))
        ↔ (ops.toDegrees ((ecefStep ops ecef.z
              (ops.sqrt (ecef.x * ecef.x + ecef.y * ecef.y)))^[10]
              (ops.atan (ecef.z / ops.sqrt (ecef.x * ecef.x + ecef.y * ecef.y)), 0)).1 < -90
            ∨ ops.toDegrees ((ecefStep ops ecef.z
              (ops.sqrt (ecef.x * ecef.x + ecef.y * ecef.y)))^[10]
              (ops.atan (ecef.z / ops.sqrt (ecef.x * ecef.x + ecef.y * ecef.y)), 0)).1 > 90))
    ∧ (∀ e, ecef_to_lla ops ecef = .error e →
        e = .CoordinateTransform (.InvalidLatitude
          (ops.toDegrees ((ecefStep ops ecef.z
              (ops.sqrt (ecef.x * ecef.x + ecef.y * ecef.y)))^[10]
              (ops.atan (ecef.z / ops.sqrt (ecef.x * ecef.x + ecef.y * ecef.y)), 0)).1)))
    ∧ (¬(ops.toDegrees ((ecefStep ops ecef.z
              (ops.sqrt (ecef.x * ecef.x + ecef.y * ecef.y)))^[10]
              (ops.atan (ecef.z / ops.sqrt (ecef.x * ecef.x + ecef.y * ecef.y)), 0)).1 < -90
          ∨ ops.toDegrees ((ecefStep ops ecef.z
              (ops.sqrt (ecef.x * ecef.x + ecef.y * ecef.y)))^[10]
              (ops.atan (ecef.z / ops.sqrt (ecef.x * ecef.x + ecef.y * ecef.y)), 0)).1 > 90) →
        ecef_to_lla ops ecef = .ok
          ⟨ops.toDegrees ((ecefStep ops ecef.z
              (ops.sqrt (ecef.x * ecef.x + ecef.y * ecef.y)))^[10]
              (ops.atan (ecef.z / ops.sqrt (ecef.x * ecef.x + ecef.y * ecef.y)), 0)).1,
           ops.toDegrees (ops.atan2 ecef.y ecef.x),
           ((ecefStep ops ecef.z
              (ops.sqrt (ecef.x * ecef.x + ecef.y * ecef.y)))^[10]
              (ops.atan (ecef.z / ops.sqrt (ecef.x * ecef.x + ecef.y * ecef.y)), 0)).2⟩) := by
  have e : ecef_to_lla ops ecef
      = if ops.toDegrees ((ecefStep ops ecef.z
            (ops.sqrt (ecef.x * ecef.x + ecef.y * ecef.y)))^[10]
            (ops.atan (ecef.z / ops.sqrt (ecef.x * ecef.x + ecef.y * ecef.y)), 0)).1 < -90
          ∨ ops.toDegrees ((ecefStep ops ecef.z
            (ops.sqrt (ecef.x * ecef.x + ecef.y * ecef.y)))^[10]
            (ops.atan (ecef.z / ops.sqrt (ecef.x * ecef.x + ecef.y * ecef.y)), 0)).1 > 90
        then .error (.CoordinateTransform (.InvalidLatitude
            (ops.toDegrees ((ecefStep ops ecef.z
              (ops.sqrt (ecef.x * ecef.x + ecef.y * ecef.y)))^[10]
              (ops.atan (ecef.z / ops.sqrt (ecef.x * ecef.x + ecef.y * ecef.y)), 0)).1)))
        else .ok
          ⟨ops.toDegrees ((ecefStep ops ecef.z
              (ops.sqrt (ecef.x * ecef.x + ecef.y * ecef.y)))^[10]
              (ops.atan (ecef.z / ops.sqrt (ecef.x * ecef.x + ecef.y * ecef.y)), 0)).1,
           ops.toDegrees (ops.atan2 ecef.y ecef.x),
           ((ecefStep ops ecef.z
              (ops.sqrt (ecef.x * ecef.x + ecef.y * ecef.y)))^[10]
              (ops.atan (ecef.z / ops.sqrt (ecef.x * ecef.x + ecef.y * ecef.y)), 0)).2⟩ := by
    simp only [ecef_to_lla, ecefLoop_eq_iterate]
  refine ⟨ecefLoop_eq_iterate ops ecef.z (ops.sqrt (ecef.x * ecef.x + ecef.y * ecef.y)),
          ?_, ?_, ?_⟩
  · rw [e]
    by_cases h : ops.toDegrees ((ecefStep ops ecef.z
          (ops.sqrt (ecef.x * ecef.x + ecef.y * ecef.y)))^[10]
          (ops.atan (ecef.z / ops.sqrt (ecef.x * ecef.x + ecef.y * ecef.y)), 0)).1 < -90
        ∨ ops.toDegrees ((ecefStep ops ecef.z
          (ops.sqrt (ecef.x * ecef.x + ecef.y * ecef.y)))^[10]
          (ops.atan (ecef.z / ops.sqrt (ecef.x * ecef.x + ecef.y * ecef.y)), 0)).1 > 90
    · rw [if_pos h]
      exact iff_of_true rfl h
    · rw [if_neg h]
      exact iff_of_false (fun hx => Except.noConfusion hx) h
  · intro err herr
    rw [e] at herr
    by_cases h : ops.toDegrees ((ecefStep ops ecef.z
          (ops.sqrt (ecef.x * ecef.x + ecef.y * ecef.y)))^[10]
          (ops.atan (ecef.z / ops.sqrt (ecef.x * ecef.x + ecef.y * ecef.y)), 0)).1 < -90
        ∨ ops.toDegrees ((ecefStep ops ecef.z
          (ops.sqrt (ecef.x * ecef.x + ecef.y * ecef.y)))^[10]
          (ops.atan (ecef.z / ops.sqrt (ecef.x * ecef.x + ecef.y * ecef.y)), 0)).1 > 90
    · rw [if_pos h] at herr
      exact ((Except.error.injEq _ _).mp herr).symm
    · rw [if_neg h] at herr
      exact Except.noConfusion herr
  · intro h
    rw [e, if_neg h]

/-- Witness for C4: on input `(1, 0, 0)` with the trivial intrinsic
interpretation every iterate is `(0, 0)`, the final latitude is 0 degrees,
the range test passes, and the theorem yields `Ok (0, 0, 0)`. -/
theorem ecef_to_lla_spec_witness :
    ¬((0 : ℚ) < -90 ∨ (0 : ℚ) > 90)
    ∧ ecef_to_lla dummyOps ⟨1, 0, 0⟩ = .ok ⟨0, 0, 0⟩ := by
  refine ⟨by norm_num, ?_⟩
  have h4 := (ecef_to_lla_spec dummyOps ⟨1, 0, 0⟩).2.2.2
  have hseed : (dummyOps.atan ((Vector3.mk 1 0 0).z
      / dummyOps.sqrt ((Vector3.mk 1 0 0).x * (Vector3.mk 1 0 0).x
        + (Vector3.mk 1 0 0).y * (Vector3.mk 1 0 0).y)), (0 : ℚ)) = ((0 : ℚ), (0 : ℚ)) := by
    simp [dummyOps]
  have hstep0 : ecefStep dummyOps (Vector3.mk 1 0 0).z
      (dummyOps.sqrt ((Vector3.mk 1 0 0).x * (Vector3.mk 1 0 0).x
        + (Vector3.mk 1 0 0).y * (Vector3.mk 1 0 0).y)) ((0 : ℚ), (0 : ℚ)) = (0, 0) := by
    simp [ecefStep, dummyOps]
  rw [hseed, Function.iterate_fixed hstep0 10] at h4
  have hok := h4 (by simp [dummyOps])
  simpa [dummyOps] using hok

/-- Claim C6: `lla_to_ecef` fails with `InvalidLatitude` exactly when
`lat` lies outside `[-90, 90]` (that is the only error it can produce, and
no condition is placed on `lon`); on success it returns the closed-form
WGS84 point `x = (N + alt) cos(lat) cos(lon)`,
`y = (N + alt) cos(lat) sin(lon)`, `z = (N (1 - e^2) + alt) sin(lat)` with
`N = a / sqrt(1 - e^2 sin^2 lat)`, `a = 6378137.0` and
`e^2 = 0.00669437999014`. -/
theorem lla_to_ecef_spec (ops : RealOps) (lla : LlaCoord) :
    (lla_to_ecef ops lla = .error (.CoordinateTransform (.InvalidLatitude lla.lat)) ↔
        lla.lat < -90 ∨ lla.lat > 90)
    ∧ (∀ e, lla_to_ecef ops lla = .error e →
        e = .CoordinateTransform (.InvalidLatitude lla.lat))
    ∧ WGS84_A = 6378137
    ∧ WGS84_E2 = 669437999014 / 100000000000000
    ∧ (¬(lla.lat < -90 ∨ lla.lat > 90) →
        lla_to_ecef ops lla = .ok
          ⟨(WGS84_A / ops.sqrt (1 - WGS84_E2 * ops.sin (ops.toRadians lla.lat)
                * ops.sin (ops.toRadians lla.lat)) + lla.alt)
              * ops.cos (ops.toRadians lla.lat) * ops.cos (ops.toRadians lla.lon),
           (WGS84_A / ops.sqrt (1 - WGS84_E2 * ops.sin (ops.toRadians lla.lat)
                * ops.sin (ops.toRadians lla.lat)) + lla.alt)
              * ops.cos (ops.toRadians lla.lat) * ops.sin (ops.toRadians lla.lon),
           (WGS84_A / ops.sqrt (1 - WGS84_E2 * ops.sin (ops.toRadians lla.lat)
                * ops.sin (ops.toRadians lla.lat)) * (1 - WGS84_E2) + lla.alt)
              * ops.sin (ops.toRadians lla.lat)⟩) := by
  have e : lla_to_ecef ops lla
      = if lla.lat < -90 ∨ lla.lat > 90
        then .error (.CoordinateTransform (.InvalidLatitude lla.lat))
        else .ok
          ⟨(WGS84_A / ops.sqrt (1 - WGS84_E2 * ops.sin (ops.toRadians lla.lat)
                * ops.sin (ops.toRadians lla.lat)) + lla.alt)
              * ops.cos (ops.toRadians lla.lat) * ops.cos (ops.toRadians lla.lon),
           (WGS84_A / ops.sqrt (1 - WGS84_E2 * ops.sin (ops.toRadians lla.lat)
                * ops.sin (ops.toRadians lla.lat)) + lla.alt)
              * ops.cos (ops.toRadians lla.lat) * ops.sin (ops.toRadians lla.lon),
           (WGS84_A / ops.sqrt (1 - WGS84_E2 * ops.sin (ops.toRadians lla.lat)
                * ops.sin (ops.toRadians lla.lat)) * (1 - WGS84_E2) + lla.alt)
              * ops.sin (ops.toRadians lla.lat)⟩ := rfl
  refine ⟨?_, ?_, by norm_num [WGS84_A], by norm_num [WGS84_E2], ?_⟩
  · rw [e]
    by_cases h : lla.lat < -90 ∨ lla.lat > 90
    · rw [if_pos h]
      exact iff_of_true rfl h
    · rw [if_neg h]
      exact iff_of_false (fun hx => Except.noConfusion hx) h
  · intro err herr
    rw [e] at herr
    by_cases h : lla.lat < -90 ∨ lla.lat > 90
    · rw [if_pos h] at herr
      exact ((Except.error.injEq _ _).mp herr).symm
    · rw [if_neg h] at herr
      exact Except.noConfusion herr
  · intro h
    rw [e, if_neg h]

/-- Witness for C6: latitudes 95 and -95 are rejected with
`InvalidLatitude`, while latitude 40 with the out-of-range longitude 181
is accepted (the theorem's success branch applies and, under the trivial
intrinsics, returns the origin). -/
theorem lla_to_ecef_spec_witness :
    lla_to_ecef dummyOps ⟨95, 0, 0⟩
        = .error (.CoordinateTransform (.InvalidLatitude 95))
    ∧ lla_to_ecef dummyOps ⟨-95, 0, 0⟩
        = .error (.CoordinateTransform (.InvalidLatitude (-95)))
    ∧ ¬((40 : ℚ) < -90 ∨ (40 : ℚ) > 90)
    ∧ lla_to_ecef dummyOps ⟨40, 181, 100⟩ = .ok ⟨0, 0, 0⟩ := by
  refine ⟨?_, ?_, by norm_num, ?_⟩
  · exact (lla_to_ecef_spec dummyOps ⟨95, 0, 0⟩).1.mpr (by norm_num)
  · exact (lla_to_ecef_spec dummyOps ⟨-95, 0, 0⟩).1.mpr (by norm_num)
  · have h := (lla_to_ecef_spec dummyOps ⟨40, 181, 100⟩).2.2.2.2 (by norm_num)
    simpa [dummyOps] using h

/-! ## Claim theorems: camera models -/

/-- Claim C7: for both the Pinhole and the Fisheye camera, `project` on a
camera-frame point with `z <= 0` returns `None` (an `Option`, not an
error), and on a point with `z > 0` returns
`Some (fx * x_dist + cx, fy * y_dist + cy)` where `(x_dist, y_dist)` is
`distort (x/z, y/z)`. -/
theorem project_behind_camera_rule (ops : RealOps) (pc : PinholeCamera)
    (fc : FisheyeCamera) (pt : Vector3) :
    (pt.z ≤ 0 → pc.project ops pt = none ∧ fc.project ops pt = none)
    ∧ (pt.z > 0 →
        pc.project ops pt = some
          (pc.fx * (pc.distortion.distort ops (pt.x / pt.z) (pt.y / pt.z)).1 + pc.cx,
           pc.fy * (pc.distortion.distort ops (pt.x / pt.z) (pt.y / pt.z)).2 + pc.cy)
        ∧ fc.project ops pt = some
          (fc.fx * (fc.distortion.distort ops (pt.x / pt.z) (pt.y / pt.z)).1 + fc.cx,
           fc.fy * (fc.distortion.distort ops (pt.x / pt.z) (pt.y / pt.z)).2 + fc.cy)) := by
  constructor
  · intro h
    constructor
    · simp only [PinholeCamera.project, if_pos h]
    · simp only [FisheyeCamera.project, if_pos h]
  · intro h
    have h2 : ¬pt.z ≤ 0 := not_le.mpr h
    constructor
    · simp only [PinholeCamera.project, if_neg h2]
    · simp only [FisheyeCamera.project, if_neg h2]

/-- Witness for C7: the 1920x1080 ideal pinhole (`fx = fy = 1000`,
`cx = 960`, `cy = 540`) and a distortion-free fisheye both return `None`
on `(0, 0, -1)`; on `(0.5, 0.3, 1)` the pinhole returns the spec's exact
value `(1460, 840)` and the fisheye returns `(1360, 780)`. -/
theorem project_behind_camera_rule_witness :
    ((-1 : ℚ) ≤ 0)
    ∧ (PinholeCamera.new_ideal 1920 1080 1000 1000 960 540).project dummyOps
        ⟨0, 0, -1⟩ = none
    ∧ (FisheyeCamera.new 1920 1080 800 800 960 540 0 0 0 0).project dummyOps
        ⟨0, 0, -1⟩ = none
    ∧ ((1 : ℚ) > 0)
    ∧ (PinholeCamera.new_ideal 1920 1080 1000 1000 960 540).project dummyOps
        ⟨1/2, 3/10, 1⟩ = some (1460, 840)
    ∧ (FisheyeCamera.new 1920 1080 800 800 960 540 0 0 0 0).project dummyOps
        ⟨1/2, 3/10, 1⟩ = some (1360, 780) := by
  have hb := (project_behind_camera_rule dummyOps
      (PinholeCamera.new_ideal 1920 1080 1000 1000 960 540)
      (FisheyeCamera.new 1920 1080 800 800 960 540 0 0 0 0) ⟨0, 0, -1⟩).1
      (by norm_num)
  have hf := (project_behind_camera_rule dummyOps
      (PinholeCamera.new_ideal 1920 1080 1000 1000 960 540)
      (FisheyeCamera.new 1920 1080 800 800 960 540 0 0 0 0) ⟨1/2, 3/10, 1⟩).2
      (by norm_num)
  refine ⟨by norm_num, hb.1, hb.2, by norm_num, ?_, ?_⟩
  · rw [hf.1]
    norm_num [PinholeCamera.new_ideal, DistortionModel.distort]
  · rw [hf.2]
    have hdist : (DistortionModel.Fisheye 0 0 0 0).distort dummyOps
        ((1/2 : ℚ) / 1) ((3/10 : ℚ) / 1) = (1/2, 3/10) := by
      simp [DistortionModel.distort, dummyOps]
      norm_num
    norm_num [FisheyeCamera.new] at hdist ⊢
    rw [hdist]
    norm_num

/-- Claim C9: the camera constructors perform no validation: for every
parameter combination — `fx = 0`, `fy = 0`, `width = 0`, `height = 0`
included — they succeed and store the parameters verbatim (no invariant
`fx, fy ≠ 0`, `width, height > 0` is checked anywhere); `unproject`
divides by `fx` and `fy` unguarded (`unprojectDist`), so with `fx = 0` an
ideal camera still returns `Ok` (no error is raised), while under the
IEEE finiteness model `div64` the distorted x-coordinate is non-finite. -/
theorem camera_constructors_unvalidated (w h : ℕ) (fx fy cx cy k1 k2 k3 p1 p2 k4 : ℚ) :
    PinholeCamera.new_ideal w h fx fy cx cy = ⟨w, h, fx, fy, cx, cy, .None⟩
    ∧ PinholeCamera.new_brown_conrady w h fx fy cx cy k1 k2 k3 p1 p2
        = ⟨w, h, fx, fy, cx, cy, .BrownConrady k1 k2 k3 p1 p2⟩
    ∧ FisheyeCamera.new w h fx fy cx cy k1 k2 k3 k4
        = ⟨w, h, fx, fy, cx, cy, .Fisheye k1 k2 k3 k4⟩
    ∧ (∀ (ops : RealOps) (pixel : ℚ × ℚ),
        unprojectDist fx fy cx cy pixel
          = ((pixel.1 - cx) / fx, (pixel.2 - cy) / fy)
        ∧ (PinholeCamera.new_ideal w h 0 fy cx cy).unproject ops pixel
          = .ok (Vector3.normalize ops ⟨(pixel.1 - cx) / 0, (pixel.2 - cy) / fy, 1⟩)
        ∧ unprojectDist64 0 fy cx cy pixel = (none, div64 (pixel.2 - cy) fy)) := by
  refine ⟨rfl, rfl, rfl, fun ops pixel => ⟨rfl, rfl, ?_⟩⟩
  simp [unprojectDist64, div64]

end RSP
